import Mathlib

/-!
Verification of the WebSocket `ConnectionManager` of the EDOS detection kit
(`backend/app/core/websocket_manager.py`).

The manager keeps `active_connections : Dict[str, List[WebSocket]]`, an
insertion-ordered dictionary from channel name to the list of live
connections.  We embed it as an association list `Registry` with the same
insertion-order behaviour as a Python dict (assignment to a fresh key
appends at the end; assignment to an existing key updates in place).

Connections are opaque handles compared by identity; we model them as
natural-number ids.  The transport layer's behaviour is passed in as data:
`acceptOk` tells whether `websocket.accept()` succeeds inside `connect`,
and `sendOk : Conn → Bool` tells which `send_text` calls succeed during a
`broadcast` sweep (the code catches every send exception).
-/

namespace EdosKit

/-- A WebSocket connection handle, identity-compared; modelled by an id. -/
abbrev Conn := Nat

/-- `active_connections`: insertion-ordered map, channel name ↦ members. -/
abbrev Registry := List (String × List Conn)

/-- `ConnectionManager.__init__`: the four pre-registered empty channels. -/
def initState : Registry :=
  [("alerts", []), ("metrics", []), ("network_traffic", []), ("logs", [])]

/-- Dict lookup: `active_connections[ch]` / `ch in active_connections`. -/
def lookupCh (ch : String) (r : Registry) : Option (List Conn) :=
  (r.find? (fun p => p.1 == ch)).map (fun p => p.2)

/-- Dict assignment `active_connections[ch] = l`: update in place when the
key exists, append a new entry at the end otherwise. -/
def setCh (ch : String) (l : List Conn) : Registry → Registry
  | [] => [(ch, l)]
  | (k, v) :: rest => if k == ch then (ch, l) :: rest else (k, v) :: setCh ch l rest

/-- `ConnectionManager.connect`: first `await websocket.accept()` (which may
raise, modelled by `acceptOk = false`); on success, auto-create the channel
entry if absent and append the connection.  The `Bool` in the result is
`true` for a normal return and `false` when the accept exception propagated
to the caller; the `Registry` is the state the caller observes afterwards. -/
def connect (acceptOk : Bool) (ws : Conn) (ch : String) (r : Registry) :
    Registry × Bool :=
  if acceptOk then
    match lookupCh ch r with
    | some l => (setCh ch (l ++ [ws]) r, true)
    | none => (setCh ch [ws] r, true)
  else (r, false)

/-- Python `list.remove`: drop the first occurrence; `disconnect` wraps the
call in `try ... except ValueError: pass`, so an absent element leaves the
list unchanged. -/
def removeFirst (ws : Conn) : List Conn → List Conn
  | [] => []
  | x :: xs => if x == ws then xs else x :: removeFirst ws xs

/-- `ConnectionManager.disconnect`: if the channel exists, remove the first
occurrence of the connection, tolerating its absence; unknown channels are
ignored.  Total: the only exception `remove` can raise is caught. -/
def disconnect (ws : Conn) (ch : String) (r : Registry) : Registry :=
  match lookupCh ch r with
  | some l => setCh ch (removeFirst ws l) r
  | none => r

/-- The delivery sweep of `ConnectionManager.broadcast`, after the payload
has been serialized to `msg`.  Returns the new registry together with the
attempt log: one `(connection, text sent, success)` triple per member, in
iteration order.  Failed connections are collected and removed by calling
`disconnect` after the sweep. -/
def broadcastMsg (sendOk : Conn → Bool) (ch : String) (msg : String)
    (r : Registry) : Registry × List (Conn × String × Bool) :=
  match lookupCh ch r with
  | none => (r, [])
  | some members =>
      let attempts := members.map (fun c => (c, msg, sendOk c))
      let failed := members.filter (fun c => !sendOk c)
      (failed.foldl (fun s c => disconnect c ch s) r, attempts)

/-- `ConnectionManager.broadcast`: unknown channel is an immediate no-op;
otherwise `message = json.dumps(data, default=str)` is computed once
(modelled by the `serialize` function supplied by the producer) and the
sweep runs on that single serialized text. -/
def broadcast {α : Type} (sendOk : Conn → Bool) (serialize : α → String)
    (ch : String) (payload : α) (r : Registry) :
    Registry × List (Conn × String × Bool) :=
  broadcastMsg sendOk ch (serialize payload) r

/-- `ConnectionManager.get_connection_count`:
`len(self.active_connections.get(channel, []))`. -/
def get_connection_count (ch : String) (r : Registry) : Nat :=
  ((lookupCh ch r).getD []).length

/-- `ConnectionManager.get_all_connection_counts`: one entry per dict key,
in dict order, mapping the channel to the length of its member list. -/
def get_all_connection_counts (r : Registry) : List (String × Nat) :=
  r.map (fun p => (p.1, p.2.length))

/-! ### Basic lemmas about the registry operations -/

theorem lookupCh_nil (ch : String) : lookupCh ch [] = none := rfl

theorem lookupCh_cons (ch k : String) (v : List Conn) (r : Registry) :
    lookupCh ch ((k, v) :: r) = if k == ch then some v else lookupCh ch r := by
  simp only [lookupCh, List.find?]
  cases h : (k == ch) <;> simp [h]

theorem lookupCh_setCh_self (ch : String) (l : List Conn) (r : Registry) :
    lookupCh ch (setCh ch l r) = some l := by
  induction r with
  | nil => simp [setCh, lookupCh_cons]
  | cons p rest ih =>
      obtain ⟨k, v⟩ := p
      cases hk : (k == ch) with
      | true => simp [setCh, hk, lookupCh_cons]
      | false => simp [setCh, hk, lookupCh_cons, ih]

theorem lookupCh_setCh_ne (ch ch' : String) (l : List Conn) (r : Registry)
    (h : ch' ≠ ch) : lookupCh ch' (setCh ch l r) = lookupCh ch' r := by
  induction r with
  | nil => simp [setCh, lookupCh_cons, lookupCh_nil, Ne.symm h]
  | cons p rest ih =>
      obtain ⟨k, v⟩ := p
      cases hk : (k == ch) with
      | true =>
          have hkc : k = ch := by simpa using hk
          have hk' : (k == ch') = false := by simp [hkc, Ne.symm h]
          have hc' : (ch == ch') = false := by simp [Ne.symm h]
          simp [setCh, hk, lookupCh_cons, hk', hc', hkc]
      | false => simp [setCh, hk, lookupCh_cons, ih]

theorem setCh_lookup_self (ch : String) (l : List Conn) (r : Registry)
    (h : lookupCh ch r = some l) : setCh ch l r = r := by
  induction r with
  | nil => simp [lookupCh_nil] at h
  | cons p rest ih =>
      obtain ⟨k, v⟩ := p
      rw [lookupCh_cons] at h
      cases hk : (k == ch) with
      | true =>
          rw [hk] at h
          simp only [if_true] at h
          have hkc : k = ch := by simpa using hk
          have hv : v = l := by simpa using h
          simp [setCh, hk, hkc, hv]
      | false =>
          rw [hk] at h
          simp only [Bool.false_eq_true, if_false] at h
          simp [setCh, hk, ih h]

theorem removeFirst_not_mem (ws : Conn) (l : List Conn) (h : ws ∉ l) :
    removeFirst ws l = l := by
  induction l with
  | nil => rfl
  | cons x xs ih =>
      have hx : (x == ws) = false := by
        simp only [beq_eq_false_iff_ne]
        exact fun e => h (e ▸ List.mem_cons_self x xs)
      simp [removeFirst, hx, ih (fun hm => h (List.mem_cons_of_mem x hm))]

theorem removeFirst_sublist (ws : Conn) (l : List Conn) :
    (removeFirst ws l).Sublist l := by
  induction l with
  | nil => exact List.Sublist.refl []
  | cons x xs ih =>
      cases hx : (x == ws) with
      | true =>
          simp only [removeFirst, hx, if_true]
          exact List.sublist_cons_self x xs
      | false => simpa [removeFirst, hx] using ih.cons₂ x

theorem nodup_removeFirst (ws : Conn) (l : List Conn) (h : l.Nodup) :
    (removeFirst ws l).Nodup :=
  h.sublist (removeFirst_sublist ws l)

theorem not_mem_removeFirst (ws : Conn) (l : List Conn) (h : l.Nodup) :
    ws ∉ removeFirst ws l := by
  induction l with
  | nil => simp [removeFirst]
  | cons x xs ih =>
      rcases List.nodup_cons.mp h with ⟨hx, hxs⟩
      cases he : (x == ws) with
      | true =>
          have hxw : x = ws := by simpa using he
          simp only [removeFirst, he, if_true]
          exact fun hm => hx (hxw ▸ hm)
      | false =>
          have hne : x ≠ ws := by simpa using he
          simp only [removeFirst, he, Bool.false_eq_true, if_false]
          intro hm
          rcases List.mem_cons.mp hm with h1 | h2
          · exact hne h1.symm
          · exact ih hxs h2

theorem mem_removeFirst_of_ne (ws x : Conn) (l : List Conn)
    (hne : x ≠ ws) (hm : x ∈ l) : x ∈ removeFirst ws l := by
  induction l with
  | nil => simp at hm
  | cons y ys ih =>
      cases hy : (y == ws) with
      | true =>
          have hyw : y = ws := by simpa using hy
          simp only [removeFirst, hy, if_true]
          rcases List.mem_cons.mp hm with h1 | h2
          · exact absurd (h1.trans hyw) hne
          · exact h2
      | false =>
          simp only [removeFirst, hy, Bool.false_eq_true, if_false]
          rcases List.mem_cons.mp hm with h1 | h2
          · exact h1 ▸ List.mem_cons_self y (removeFirst ws ys)
          · exact List.mem_cons_of_mem y (ih h2)

theorem disconnect_lookup_self (ws : Conn) (ch : String) (r : Registry) :
    lookupCh ch (disconnect ws ch r) = (lookupCh ch r).map (removeFirst ws) := by
  cases hl : lookupCh ch r with
  | none => simp [disconnect, hl]
  | some l => simp [disconnect, hl, lookupCh_setCh_self]

theorem disconnect_lookup_ne (ws : Conn) (ch ch' : String) (r : Registry)
    (h : ch' ≠ ch) : lookupCh ch' (disconnect ws ch r) = lookupCh ch' r := by
  cases hl : lookupCh ch r with
  | none => simp [disconnect, hl]
  | some l => simp [disconnect, hl, lookupCh_setCh_ne ch ch' _ r h]

theorem foldl_disconnect_lookup_ne (ch ch' : String) (cs : List Conn)
    (r : Registry) (h : ch' ≠ ch) :
    lookupCh ch' (cs.foldl (fun s c => disconnect c ch s) r) = lookupCh ch' r := by
  induction cs generalizing r with
  | nil => rfl
  | cons c cs ih =>
      simp only [List.foldl_cons]
      rw [ih (disconnect c ch r), disconnect_lookup_ne c ch ch' r h]

theorem broadcastMsg_lookup_ne (sendOk : Conn → Bool) (ch ch' : String)
    (msg : String) (r : Registry) (h : ch' ≠ ch) :
    lookupCh ch' (broadcastMsg sendOk ch msg r).1 = lookupCh ch' r := by
  cases hl : lookupCh ch r with
  | none => simp [broadcastMsg, hl]
  | some l =>
      simp only [broadcastMsg, hl]
      exact foldl_disconnect_lookup_ne ch ch' _ r h

/-! ### Claim theorems -/

/-- **C3** (auto-creation): for a channel name never seen by `connect` or
`broadcast` (its key is absent from `active_connections`), `broadcast` on it
returns immediately: the registry is unchanged and no delivery is attempted,
so no channel with connections appears; a subsequent `connect` of one fresh
connection to that name creates the channel entry with exactly one member. -/
theorem broadcast_unknown_noop_then_connect {α : Type} (sendOk : Conn → Bool)
    (serialize : α → String) (ch : String) (payload : α) (ws : Conn)
    (r : Registry) (h : lookupCh ch r = none) :
    (broadcast sendOk serialize ch payload r).1 = r ∧
    (broadcast sendOk serialize ch payload r).2 = [] ∧
    lookupCh ch (connect true ws ch r).1 = some [ws] := by
  refine ⟨?_, ?_, ?_⟩
  · simp [broadcast, broadcastMsg, h]
  · simp [broadcast, broadcastMsg, h]
  · simp [connect, h, lookupCh_setCh_self]

/-- Witness for C3 at the fresh name `"newtopic"` on the initial state. -/
theorem broadcast_unknown_noop_then_connect_witness :
    (broadcast (fun _ => true) (fun s : String => s) "newtopic" "p" initState).1
        = initState ∧
    (broadcast (fun _ => true) (fun s : String => s) "newtopic" "p" initState).2
        = [] ∧
    lookupCh "newtopic" (connect true 7 "newtopic" initState).1 = some [7] :=
  broadcast_unknown_noop_then_connect (fun _ => true) (fun s : String => s)
    "newtopic" "p" 7 initState (by decide)

/-- **C4** (idempotent disconnect): `disconnect` is total in the model — the
only exception `list.remove` can raise is `ValueError`, which the source
catches and ignores — and whenever the connection is not a member of the
named channel (channel absent, never-connected connection, or a repeated
disconnect after the connection was already removed), the call leaves the
whole registry, hence every channel's membership, unchanged. -/
theorem disconnect_noop (ws : Conn) (ch : String) (r : Registry)
    (h : ws ∉ (lookupCh ch r).getD []) : disconnect ws ch r = r := by
  cases hl : lookupCh ch r with
  | none => simp [disconnect, hl]
  | some l =>
      rw [hl] at h
      simp only [Option.getD_some] at h
      simp only [disconnect, hl]
      rw [removeFirst_not_mem ws l h]
      exact setCh_lookup_self ch l r hl

/-- Witness for C4: disconnecting an untracked connection from `"alerts"`
in the initial state changes nothing. -/
theorem disconnect_noop_witness :
    disconnect 5 "alerts" initState = initState :=
  disconnect_noop 5 "alerts" initState (by decide)

/-- **C7** (cross-channel independence): for distinct channels, a
`disconnect` on one channel, or a `broadcast` on it (with arbitrary send
failures), leaves the other channel's member list and connection count
unchanged. -/
theorem cross_channel_independence {α : Type} (sendOk : Conn → Bool)
    (serialize : α → String) (payload : α) (ws : Conn) (chX chY : String)
    (r : Registry) (h : chY ≠ chX) :
    lookupCh chY (disconnect ws chX r) = lookupCh chY r ∧
    get_connection_count chY (disconnect ws chX r) =
      get_connection_count chY r ∧
    lookupCh chY (broadcast sendOk serialize chX payload r).1 =
      lookupCh chY r ∧
    get_connection_count chY (broadcast sendOk serialize chX payload r).1 =
      get_connection_count chY r := by
  have hd := disconnect_lookup_ne ws chX chY r h
  have hb := broadcastMsg_lookup_ne sendOk chX chY (serialize payload) r h
  exact ⟨hd, by simp [get_connection_count, hd], hb,
    by simp [get_connection_count, broadcast, hb]⟩

/-- Witness for C7: a failing broadcast on `"alerts"` and a disconnect on
`"alerts"` leave `"metrics"` untouched in a concrete two-channel state. -/
theorem cross_channel_independence_witness :
    lookupCh "metrics" (disconnect 0 "alerts"
        [("alerts", [0, 1]), ("metrics", [2])]) =
      lookupCh "metrics" [("alerts", [0, 1]), ("metrics", [2])] ∧
    get_connection_count "metrics" (disconnect 0 "alerts"
        [("alerts", [0, 1]), ("metrics", [2])]) =
      get_connection_count "metrics" [("alerts", [0, 1]), ("metrics", [2])] ∧
    lookupCh "metrics" (broadcast (fun c => c != 0) (fun s : String => s)
        "alerts" "p" [("alerts", [0, 1]), ("metrics", [2])]).1 =
      lookupCh "metrics" [("alerts", [0, 1]), ("metrics", [2])] ∧
    get_connection_count "metrics" (broadcast (fun c => c != 0)
        (fun s : String => s) "alerts" "p"
        [("alerts", [0, 1]), ("metrics", [2])]).1 =
      get_connection_count "metrics" [("alerts", [0, 1]), ("metrics", [2])] :=
  cross_channel_independence (fun c => c != 0) (fun s : String => s) "p" 0
    "alerts" "metrics" [("alerts", [0, 1]), ("metrics", [2])] (by decide)

/-- **C8** (handshake failure): `connect` performs `await websocket.accept()`
before touching the registry; when the accept raises, the exception
propagates to the caller (result flag `false`) and the registry the caller
observes is exactly the one from before the call — the connection was never
registered anywhere. -/
theorem connect_handshake_failure (ws : Conn) (ch : String) (r : Registry) :
    connect false ws ch r = (r, false) := rfl

/-- **C10** (unknown channel count): `get_connection_count` uses
`dict.get(channel, [])`, so a never-seen channel name yields `0`; the
observer is a pure function of the registry (it returns only a number and
performs no dict assignment), so the registry is not modified and no
channel entry is auto-created. -/
theorem get_connection_count_unknown (ch : String) (r : Registry)
    (h : lookupCh ch r = none) : get_connection_count ch r = 0 := by
  simp [get_connection_count, h]

/-- Witness for C10 at a name outside the four pre-registered defaults. -/
theorem get_connection_count_unknown_witness :
    get_connection_count "nosuchchannel" initState = 0 :=
  get_connection_count_unknown "nosuchchannel" initState (by decide)

theorem filter_eq_single (p : Conn → Bool) (l : List Conn) (b : Conn)
    (hnd : l.Nodup) (hb : b ∈ l) (hpb : p b = true)
    (honly : ∀ x ∈ l, p x = true → x = b) : l.filter p = [b] := by
  induction l with
  | nil => simp at hb
  | cons x xs ih =>
      rcases List.nodup_cons.mp hnd with ⟨hx, hxs⟩
      cases hp : p x with
      | true =>
          have hxb : x = b := honly x (List.mem_cons_self x xs) hp
          have hnil : xs.filter p = [] := by
            rw [List.filter_eq_nil_iff]
            intro a ha hpa
            have hab : a = b := honly a (List.mem_cons_of_mem x ha) hpa
            exact hx ((hab.trans hxb.symm) ▸ ha)
          simp [List.filter_cons, hp, hnil, hxb, hpb]
      | false =>
          have hbx : b ≠ x := by
            intro e
            rw [e, hp] at hpb
            exact Bool.false_ne_true hpb
          have hbxs : b ∈ xs := by
            rcases List.mem_cons.mp hb with h1 | h2
            · exact absurd h1 hbx
            · exact h2
          have hrec := ih hxs hbxs
            (fun a ha hpa => honly a (List.mem_cons_of_mem x ha) hpa)
          simp [List.filter_cons, hp, hrec]

/-- **C1** (fault isolation): on a channel whose member set is exactly the
distinct connections `{A, B, C}`, when the transport send fails for `B` but
succeeds for `A` and `C`, `broadcast` still attempts (and completes)
delivery to `A` and `C`, and after it returns `B` has been removed from the
channel while `A` and `C` are still members. -/
theorem broadcast_isolation {α : Type} (sendOk : Conn → Bool)
    (serialize : α → String) (ch : String) (payload : α) (r : Registry)
    (A B C : Conn) (l : List Conn)
    (hl : lookupCh ch r = some l) (hnd : l.Nodup)
    (hA : A ∈ l) (hB : B ∈ l) (hC : C ∈ l)
    (hexact : ∀ x ∈ l, x = A ∨ x = B ∨ x = C)
    (hAB : A ≠ B) (hBC : B ≠ C)
    (sA : sendOk A = true) (sB : sendOk B = false) (sC : sendOk C = true) :
    (A, serialize payload, true) ∈ (broadcast sendOk serialize ch payload r).2 ∧
    (C, serialize payload, true) ∈ (broadcast sendOk serialize ch payload r).2 ∧
    A ∈ (lookupCh ch (broadcast sendOk serialize ch payload r).1).getD [] ∧
    B ∉ (lookupCh ch (broadcast sendOk serialize ch payload r).1).getD [] ∧
    C ∈ (lookupCh ch (broadcast sendOk serialize ch payload r).1).getD [] := by
  have hfail : l.filter (fun c => !sendOk c) = [B] := by
    refine filter_eq_single _ l B hnd hB (by simp [sB]) ?_
    intro x hxl hpx
    rcases hexact x hxl with h1 | h1 | h1
    · rw [h1, sA] at hpx
      simp at hpx
    · exact h1
    · rw [h1, sC] at hpx
      simp at hpx
  have hstate : (broadcast sendOk serialize ch payload r).1 =
      disconnect B ch r := by
    simp [broadcast, broadcastMsg, hl, hfail]
  have hmem : lookupCh ch (broadcast sendOk serialize ch payload r).1 =
      some (removeFirst B l) := by
    rw [hstate, disconnect_lookup_self, hl]
    rfl
  refine ⟨?_, ?_, ?_, ?_, ?_⟩
  · simp only [broadcast, broadcastMsg, hl]
    exact List.mem_map.mpr ⟨A, hA, by rw [sA]⟩
  · simp only [broadcast, broadcastMsg, hl]
    exact List.mem_map.mpr ⟨C, hC, by rw [sC]⟩
  · rw [hmem]
    exact mem_removeFirst_of_ne B A l hAB hA
  · rw [hmem]
    exact not_mem_removeFirst B l hnd
  · rw [hmem]
    exact mem_removeFirst_of_ne B C l (Ne.symm hBC) hC

/-- Witness for C1: connections `0, 1, 2` on `"alerts"`, send to `1` fails. -/
theorem broadcast_isolation_witness :
    (0, "m", true) ∈ (broadcast (fun c => c != 1) (fun s : String => s)
        "alerts" "m" [("alerts", [0, 1, 2])]).2 ∧
    (2, "m", true) ∈ (broadcast (fun c => c != 1) (fun s : String => s)
        "alerts" "m" [("alerts", [0, 1, 2])]).2 ∧
    0 ∈ (lookupCh "alerts" (broadcast (fun c => c != 1) (fun s : String => s)
        "alerts" "m" [("alerts", [0, 1, 2])]).1).getD [] ∧
    1 ∉ (lookupCh "alerts" (broadcast (fun c => c != 1) (fun s : String => s)
        "alerts" "m" [("alerts", [0, 1, 2])]).1).getD [] ∧
    2 ∈ (lookupCh "alerts" (broadcast (fun c => c != 1) (fun s : String => s)
        "alerts" "m" [("alerts", [0, 1, 2])]).1).getD [] := by
  have h := broadcast_isolation (fun c => c != 1) (fun s : String => s)
    "alerts" "m" [("alerts", [0, 1, 2])] 0 1 2 [0, 1, 2]
    (by decide) (by decide) (by decide) (by decide) (by decide)
    (by decide) (by decide) (by decide) (by decide) (by decide) (by decide)
  exact ⟨h.1, h.2.1, h.2.2.1, h.2.2.2.1, h.2.2.2.2⟩

/-- **C5** (serialize once): every attempt in a broadcast sweep carries the
single serialized text `serialize payload` (the source computes
`json.dumps(data, default=str)` once, before the loop), every member whose
send succeeds receives exactly that text, and when all sends succeed the
registry is unchanged and the channel's count is still the member count. -/
theorem broadcast_serialize_once {α : Type} (sendOk : Conn → Bool)
    (serialize : α → String) (ch : String) (payload : α) (r : Registry)
    (l : List Conn) (hl : lookupCh ch r = some l) :
    (∀ c m ok, (c, m, ok) ∈ (broadcast sendOk serialize ch payload r).2 →
        m = serialize payload) ∧
    (∀ c ∈ l, sendOk c = true →
        (c, serialize payload, true) ∈
          (broadcast sendOk serialize ch payload r).2) ∧
    ((∀ c ∈ l, sendOk c = true) →
        (broadcast sendOk serialize ch payload r).1 = r ∧
        get_connection_count ch (broadcast sendOk serialize ch payload r).1 =
          l.length) := by
  refine ⟨?_, ?_, ?_⟩
  · intro c m ok hm
    simp only [broadcast, broadcastMsg, hl] at hm
    obtain ⟨a, _, heq⟩ := List.mem_map.mp hm
    simp only [Prod.mk.injEq] at heq
    exact heq.2.1.symm
  · intro c hc hsc
    simp only [broadcast, broadcastMsg, hl]
    exact List.mem_map.mpr ⟨c, hc, by rw [hsc]⟩
  · intro hall
    have hnil : l.filter (fun c => !sendOk c) = [] := by
      rw [List.filter_eq_nil_iff]
      intro a ha
      simp [hall a ha]
    have hst : (broadcast sendOk serialize ch payload r).1 = r := by
      simp [broadcast, broadcastMsg, hl, hnil]
    exact ⟨hst, by simp [hst, get_connection_count, hl]⟩

/-- Witness for C5: three connections on `"alerts"`, all sends succeed. -/
theorem broadcast_serialize_once_witness :
    (∀ c m ok, (c, m, ok) ∈ (broadcast (fun _ => true) (fun s : String => s)
        "alerts" "m" [("alerts", [0, 1, 2])]).2 → m = "m") ∧
    (∀ c ∈ ([0, 1, 2] : List Conn), (fun _ : Conn => true) c = true →
        (c, "m", true) ∈ (broadcast (fun _ => true) (fun s : String => s)
          "alerts" "m" [("alerts", [0, 1, 2])]).2) ∧
    ((∀ c ∈ ([0, 1, 2] : List Conn), (fun _ : Conn => true) c = true) →
        (broadcast (fun _ => true) (fun s : String => s) "alerts" "m"
          [("alerts", [0, 1, 2])]).1 = [("alerts", [0, 1, 2])] ∧
        get_connection_count "alerts" (broadcast (fun _ => true)
          (fun s : String => s) "alerts" "m" [("alerts", [0, 1, 2])]).1 = 3) :=
  broadcast_serialize_once (fun _ => true) (fun s : String => s) "alerts" "m"
    [("alerts", [0, 1, 2])] [0, 1, 2] (by decide)

/-! ### Reachable manager states -/

/-- A connection is fresh: not currently tracked in any channel (the spec's
precondition on `connect`). -/
def Fresh (ws : Conn) (r : Registry) : Prop :=
  ∀ ch l, lookupCh ch r = some l → ws ∉ l

/-- Registry states reachable from `__init__` by any sequence of `connect`
(with fresh connections, succeeding or failing the accept handshake),
`disconnect`, and `broadcast` (with arbitrary send failures; `msg` stands
for the serialized payload). -/
inductive Reach : Registry → Prop
  | init : Reach initState
  | conn {r : Registry} (ws : Conn) (ch : String) :
      Reach r → Fresh ws r → Reach (connect true ws ch r).1
  | connFail {r : Registry} (ws : Conn) (ch : String) :
      Reach r → Reach (connect false ws ch r).1
  | disc {r : Registry} (ws : Conn) (ch : String) :
      Reach r → Reach (disconnect ws ch r)
  | bcast {r : Registry} (sendOk : Conn → Bool) (ch : String) (msg : String) :
      Reach r → Reach (broadcastMsg sendOk ch msg r).1

/-- Every channel's member list is duplicate-free. -/
def ChannelsNodup (r : Registry) : Prop :=
  ∀ ch l, lookupCh ch r = some l → l.Nodup

theorem channelsNodup_of_entries (r : Registry)
    (h : ∀ p ∈ r, (Prod.snd p).Nodup) : ChannelsNodup r := by
  intro ch l hl
  simp only [lookupCh, Option.map_eq_some'] at hl
  obtain ⟨p, hp, hpl⟩ := hl
  exact hpl ▸ h p (List.mem_of_find?_eq_some hp)

theorem fresh_initState (ws : Conn) : Fresh ws initState := by
  intro ch l hl
  simp only [lookupCh, Option.map_eq_some'] at hl
  obtain ⟨p, hp, hpl⟩ := hl
  have hm := List.mem_of_find?_eq_some hp
  simp only [initState, List.mem_cons, List.not_mem_nil, or_false] at hm
  rcases hm with h | h | h | h <;> simp [← hpl, h]

theorem channelsNodup_init : ChannelsNodup initState := by
  refine channelsNodup_of_entries _ ?_
  intro p hp
  simp only [initState, List.mem_cons, List.not_mem_nil, or_false] at hp
  rcases hp with h | h | h | h <;> simp [h]

theorem channelsNodup_setCh (ch : String) (l' : List Conn) (r : Registry)
    (h : ChannelsNodup r) (hl : l'.Nodup) : ChannelsNodup (setCh ch l' r) := by
  intro ch' l hl'
  by_cases hc : ch' = ch
  · subst hc
    rw [lookupCh_setCh_self] at hl'
    exact (Option.some_injective _ hl') ▸ hl
  · rw [lookupCh_setCh_ne ch ch' l' r hc] at hl'
    exact h ch' l hl'

theorem channelsNodup_connect (ws : Conn) (ch : String) (r : Registry)
    (h : ChannelsNodup r) (hf : Fresh ws r) :
    ChannelsNodup (connect true ws ch r).1 := by
  cases hl : lookupCh ch r with
  | none =>
      simp only [connect, if_true, hl]
      exact channelsNodup_setCh ch [ws] r h (List.nodup_singleton ws)
  | some l =>
      simp only [connect, if_true, hl]
      refine channelsNodup_setCh ch (l ++ [ws]) r h ?_
      refine (h ch l hl).append (List.nodup_singleton ws) ?_
      intro a ha hm
      rw [List.mem_singleton] at hm
      exact hf ch l hl (hm ▸ ha)

theorem channelsNodup_disconnect (ws : Conn) (ch : String) (r : Registry)
    (h : ChannelsNodup r) : ChannelsNodup (disconnect ws ch r) := by
  cases hl : lookupCh ch r with
  | none => simpa [disconnect, hl] using h
  | some l =>
      simp only [disconnect, hl]
      exact channelsNodup_setCh ch (removeFirst ws l) r h
        (nodup_removeFirst ws l (h ch l hl))

theorem channelsNodup_foldl_disconnect (ch : String) (cs : List Conn)
    (r : Registry) (h : ChannelsNodup r) :
    ChannelsNodup (cs.foldl (fun s c => disconnect c ch s) r) := by
  induction cs generalizing r with
  | nil => exact h
  | cons c cs ih =>
      simp only [List.foldl_cons]
      exact ih (disconnect c ch r) (channelsNodup_disconnect c ch r h)

theorem channelsNodup_broadcastMsg (sendOk : Conn → Bool) (ch : String)
    (msg : String) (r : Registry) (h : ChannelsNodup r) :
    ChannelsNodup (broadcastMsg sendOk ch msg r).1 := by
  cases hl : lookupCh ch r with
  | none => simpa [broadcastMsg, hl] using h
  | some l =>
      simp only [broadcastMsg, hl]
      exact channelsNodup_foldl_disconnect ch _ r h

theorem reach_channelsNodup (r : Registry) (h : Reach r) : ChannelsNodup r := by
  induction h with
  | init => exact channelsNodup_init
  | conn ws ch _ hf ih => exact channelsNodup_connect ws ch _ ih hf
  | connFail ws ch _ ih => exact ih
  | disc ws ch _ ih => exact channelsNodup_disconnect ws ch _ ih
  | bcast sendOk ch msg _ ih => exact channelsNodup_broadcastMsg sendOk ch msg _ ih

/-- **C9** (set invariant): under the spec's precondition that every
connection handed to `connect` is fresh (tracked nowhere), every state
reachable by connects, disconnects, and broadcasts with arbitrary send
failures keeps each channel's member list duplicate-free; and a removed
connection is really gone: right after `disconnect ws ch`, `ws` is not a
member of `ch`. -/
theorem reach_nodup_invariant (r : Registry) (h : Reach r) :
    ChannelsNodup r ∧
    ∀ ws ch, ws ∉ (lookupCh ch (disconnect ws ch r)).getD [] := by
  have hnd := reach_channelsNodup r h
  refine ⟨hnd, ?_⟩
  intro ws ch
  cases hl : lookupCh ch r with
  | none => simp [disconnect, hl]
  | some l =>
      simp only [disconnect, hl, lookupCh_setCh_self, Option.getD_some]
      exact not_mem_removeFirst ws l (hnd ch l hl)

/-- Witness for C9 at the initial state. -/
theorem reach_nodup_invariant_witness :
    ChannelsNodup initState ∧
    ∀ ws ch, ws ∉ (lookupCh ch (disconnect ws ch initState)).getD [] :=
  reach_nodup_invariant initState Reach.init

/-- **C6** (count consistency): in every reachable state (any sequence of
connects of fresh connections, disconnects, and broadcasts with send
failures), `get_connection_count ch` equals the number of distinct
connections currently registered to `ch` — the cardinality of the channel's
member set; the observer itself is a pure function of the registry (it
returns only a number), so reading it has no side effect. -/
theorem count_consistency (r : Registry) (h : Reach r) (ch : String) :
    get_connection_count ch r = ((lookupCh ch r).getD []).toFinset.card := by
  have hnd := reach_channelsNodup r h
  cases hl : lookupCh ch r with
  | none => simp [get_connection_count, hl]
  | some l =>
      simp only [get_connection_count, hl, Option.getD_some]
      exact (List.toFinset_card_of_nodup (hnd ch l hl)).symm

/-- Witness for C6 on a reachable state with one connection on `"alerts"`. -/
theorem count_consistency_witness :
    get_connection_count "alerts" (connect true 4 "alerts" initState).1 =
      ((lookupCh "alerts" (connect true 4 "alerts" initState).1).getD
        []).toFinset.card :=
  count_consistency (connect true 4 "alerts" initState).1
    (Reach.conn 4 "alerts" Reach.init (fresh_initState 4)) "alerts"

/-! ### The `get_all_connection_counts` scenario (C2) -/

/-- The state reached from `__init__` by connecting two fresh connections to
`"alerts"` and one to `"logs"` — the scenario with `"alerts"`:2,
`"metrics"`:0, `"logs"`:1 registered via `connect`. -/
def c2state : Registry :=
  (connect true 2 "logs"
    ((connect true 1 "alerts"
      ((connect true 0 "alerts" initState).1)).1)).1

/-- Counterexample to C2 as stated: in the scenario state the returned
mapping also contains the pre-registered default channel
`"network_traffic"` (with count 0), which is none of `"alerts"`,
`"metrics"`, `"logs"` — so the mapping does not consist of exactly those
three entries. -/
theorem get_all_counts_spurious_entry :
    ("network_traffic", 0) ∈ get_all_connection_counts c2state ∧
    ¬("network_traffic" = "alerts" ∨ "network_traffic" = "metrics" ∨
      "network_traffic" = "logs") := by
  decide

/-- **C2 amended**: in the scenario state (`"alerts"`:2, `"metrics"`:0,
`"logs"`:1 registered via `connect`), `get_all_connection_counts` returns a
mapping with exactly four entries: `"alerts" ↦ 2`, `"metrics" ↦ 0`,
`"logs" ↦ 1`, plus the pre-registered default `"network_traffic" ↦ 0`
(present since `__init__`), and no other channel entries. -/
theorem get_all_connection_counts_scenario (a b c : Conn) :
    get_all_connection_counts
      ((connect true c "logs"
        ((connect true b "alerts"
          ((connect true a "alerts" initState).1)).1)).1) =
      [("alerts", 2), ("metrics", 0), ("network_traffic", 0), ("logs", 1)] :=
  rfl

end EdosKit
